import Mathlib

/-
Shallow embedding of src/app.py, the WhatsApp chatbot webhook of this
repository.  JSON values (both inbound payloads and the contents of the
Firebase realtime database) are modelled by the inductive type JVal; the
database itself by the Store structure, whose four fields are the four
top-level paths the program touches (students/{id}, classes/{dept},
admins/{id}, users/{id}/introduced), each an association list in store
iteration order.  Python exceptions are modelled by Except/Option: an
operation that can raise returns an error value which the embedding of the
surrounding try/except handles exactly where the source does.  Outbound
WhatsApp messages are collected in a list of (recipient, text) pairs;
requests.post itself is not modelled as failing (no claim concerns a
failing send).  Calendar dates are represented by the natural number
y * 10000 + m * 100 + d; for the month/day ranges the parser admits this
ordering coincides with the lexicographic (y, m, d) ordering that Python
date comparison uses.
-/

inductive JVal : Type where
  | null : JVal
  | bool : Bool → JVal
  | num : Int → JVal
  | str : String → JVal
  | arr : List JVal → JVal
  | obj : List (String × JVal) → JVal

abbrev Dict := List (String × JVal)

/-- First-occurrence lookup in an association list (Python dict access on
dicts built in insertion order). -/
def alookup {α : Type} (l : List (String × α)) (k : String) : Option α :=
  match l with
  | [] => none
  | (k1, v) :: t => if k1 = k then some v else alookup t k

/-- Set a key in an association list: replace the first occurrence in place,
or append when absent (Python dict assignment / Firebase set at a child). -/
def aset {α : Type} (l : List (String × α)) (k : String) (v : α) : List (String × α) :=
  match l with
  | [] => [(k, v)]
  | (k1, v1) :: t => if k1 = k then (k, v) :: t else (k1, v1) :: aset t k v

/-- Python truthiness of a JSON value. -/
def truthy : JVal → Bool
  | .null => false
  | .bool b => b
  | .num n => n != 0
  | .str s => s != ""
  | .arr l => !l.isEmpty
  | .obj m => !m.isEmpty

/-- Python str() as used inside f-strings.  Faithful for strings, booleans,
integers and None; containers get a fixed marker, since no claim depends on
the exact rendering of a container inside a message or a path. -/
def jstr : JVal → String
  | .str s => s
  | .bool b => if b then "True" else "False"
  | .num n => toString n
  | .null => "None"
  | .arr _ => "<list>"
  | .obj _ => "<dict>"

/-- Python == between a JSON value and a string literal (app.py line 143,
dept == given string: true exactly on that string value). -/
def jeqStr (v : JVal) (s : String) : Bool :=
  match v with
  | .str t => t == s
  | _ => false

/-- The strict identity check admin_ref.get() is True of app.py line 123:
only the boolean True passes. -/
def isTrueSentinel : Option JVal → Bool
  | some (.bool true) => true
  | _ => false

/-
String helpers.  The core library implements many String operations by
position arithmetic or well-founded recursion, which does not reduce inside
the kernel; the embedding therefore works on the underlying character lists
with structurally recursive functions of the same semantics as the Python
string methods the source uses.
-/

/-- Python str.lower (ASCII, which is all the program compares). -/
def lowerStr (s : String) : String :=
  String.mk (s.data.map Char.toLower)

def isPrefixOfChars : List Char → List Char → Bool
  | [], _ => true
  | _ :: _, [] => false
  | a :: as, b :: bs => a == b && isPrefixOfChars as bs

/-- Python str.startswith. -/
def startsWithStr (s p : String) : Bool :=
  isPrefixOfChars p.data s.data

/-- CPython whitespace (Py_UNICODE_ISSPACE): the character class both
str.split() with no argument and str.strip() with no argument use:
0x09-0x0d, 0x1c-0x20, 0x85, 0xa0, 0x1680, 0x2000-0x200a, 0x2028, 0x2029,
0x202f, 0x205f, 0x3000. -/
def pySpace (c : Char) : Bool :=
  let n := c.toNat
  decide ((9 ≤ n ∧ n ≤ 13) ∨ (28 ≤ n ∧ n ≤ 32) ∨ n = 133 ∨ n = 160 ∨ n = 5760 ∨
    (8192 ≤ n ∧ n ≤ 8202) ∨ n = 8232 ∨ n = 8233 ∨ n = 8239 ∨ n = 8287 ∨ n = 12288)

/-- Python str.strip() with no argument: whitespace removed from both
ends. -/
def trimChars (l : List Char) : List Char :=
  ((l.dropWhile pySpace).reverse.dropWhile pySpace).reverse

def trimStr (s : String) : String :=
  String.mk (trimChars s.data)

/-- Split a character list at every character satisfying p (keeping empty
pieces, like str.split with an explicit separator). -/
def splitPred (p : Char → Bool) : List Char → List (List Char)
  | [] => [[]]
  | c :: t =>
    let r := splitPred p t
    if p c then [] :: r
    else
      match r with
      | h :: t2 => (c :: h) :: t2
      | [] => [[c]]

/-- Python str.split() with no argument (app.py line 127): split on runs of
Python whitespace, dropping empty pieces. -/
def splitWS (s : String) : List String :=
  ((splitPred pySpace s.data).map String.mk).filter (fun x => x ≠ "")

/-- Python sep.join(pieces). -/
def joinSep (sep : String) : List String → String
  | [] => ""
  | [x] => x
  | x :: xs => x ++ sep ++ joinSep sep xs

/-- Substring containment (Python in on strings). -/
def containsSub (hay needle : List Char) : Bool :=
  match hay with
  | [] => needle.isEmpty
  | _ :: t => isPrefixOfChars needle hay || containsSub t needle

/-- The zero digit of every run of Unicode decimal digits (category Nd;
every script places its ten digits at consecutive codepoints, so the digit
value is the codepoint minus the run zero).  This is the character class
CPython regex \\d matches in str patterns and int() converts. -/
def pyDigitZeros : List Nat :=
  [48, 1632, 1776, 1984, 2406, 2534, 2662, 2790, 2918, 3046, 3174, 3302, 3430, 3558, 3664, 3792, 3872, 4160, 4240, 6112, 6160, 6470, 6608, 6784, 6800, 6992, 7088, 7232, 7248, 42528, 43216, 43264, 43472, 43504, 43600, 44016, 65296, 66720, 68912, 69734, 69872, 69942, 70096, 70384, 70736, 70864, 71248, 71360, 71472, 71904, 72016, 72784, 73040, 73120, 92768, 92864, 93008, 120782, 120792, 120802, 120812, 120822, 123200, 123632, 125264, 130032]

def pyDigitVal (c : Char) : Option Nat :=
  let n := c.toNat
  (pyDigitZeros.find? (fun z => decide (z ≤ n ∧ n ≤ z + 9))).map (fun z => n - z)

def pyIsDigit (c : Char) : Bool :=
  (pyDigitVal c).isSome

def isLeap (y : Nat) : Bool :=
  (y % 4 == 0 && y % 100 != 0) || y % 400 == 0

def daysInMonth (y m : Nat) : Nat :=
  if m = 2 then (if isLeap y then 29 else 28)
  else if m = 4 ∨ m = 6 ∨ m = 9 ∨ m = 11 then 30 else 31

/-- The %Y field of strptime: regex \d\d\d\d, exactly four Unicode decimal
digits, converted by int(). -/
def yearOf (l : List Char) : Option Nat :=
  match l with
  | [a, b, c, d] =>
    match pyDigitVal a, pyDigitVal b, pyDigitVal c, pyDigitVal d with
    | some va, some vb, some vc, some vd => some (va * 1000 + vb * 100 + vc * 10 + vd)
    | _, _, _, _ => none
  | _ => none

/-- The %m field of strptime: regex 1[0-2]|0[1-9]|[1-9] (ASCII literals
only), fullmatched against the dash-delimited field. -/
def monthOf (l : List Char) : Option Nat :=
  match l with
  | [c] =>
    let n := c.toNat
    if 49 ≤ n ∧ n ≤ 57 then some (n - 48) else none
  | [c1, c2] =>
    let n1 := c1.toNat
    let n2 := c2.toNat
    if n1 = 49 ∧ 48 ≤ n2 ∧ n2 ≤ 50 then some (10 + (n2 - 48))
    else if n1 = 48 ∧ 49 ≤ n2 ∧ n2 ≤ 57 then some (n2 - 48)
    else none
  | _ => none

/-- The %d field of strptime: regex 3[0-1]|[1-2]\d|0[1-9]|[1-9]| [1-9],
with \d any Unicode decimal digit, converted by int() (which strips the
optional leading space of the last alternative). -/
def dayOf (l : List Char) : Option Nat :=
  match l with
  | [c] =>
    let n := c.toNat
    if 49 ≤ n ∧ n ≤ 57 then some (n - 48) else none
  | [c1, c2] =>
    let n1 := c1.toNat
    let n2 := c2.toNat
    if n1 = 51 ∧ (n2 = 48 ∨ n2 = 49) then some (30 + (n2 - 48))
    else if (n1 = 49 ∨ n1 = 50) ∧ pyIsDigit c2 then
      some ((n1 - 48) * 10 + (pyDigitVal c2).getD 0)
    else if n1 = 48 ∧ 49 ≤ n2 ∧ n2 ≤ 57 then some (n2 - 48)
    else if n1 = 32 ∧ 49 ≤ n2 ∧ n2 ≤ 57 then some (n2 - 48)
    else none
  | _ => none

/-- datetime.strptime(s, "%Y-%m-%d").date() of app.py line 76, returning
none where Python raises ValueError.  CPython compiles the format to the
regex \d\d\d\d-(1[0-2]|0[1-9]|[1-9])-(3[0-1]|[1-2]\d|0[1-9]|[1-9]| [1-9])
with \d any Unicode decimal digit, and requires the whole string to be
consumed; the datetime constructor then enforces 1 <= year and a day that
exists in the month.  No field can contain the dash, so matching is
equivalent to splitting on dashes into exactly three fullmatched fields.
The date is returned as its rank y*10000 + m*100 + d, whose ordering
agrees with Python date ordering on the admitted ranges. -/
def parseDate (s : String) : Option Nat :=
  match splitPred (fun c => c == Char.ofNat 0x2d) s.data with
  | [ys, ms, ds] =>
    match yearOf ys, monthOf ms, dayOf ds with
    | some y, some m, some d =>
      if 1 ≤ y ∧ 1 ≤ d ∧ d ≤ daysInMonth y m then
        some (y * 10000 + m * 100 + d)
      else none
    | _, _, _ => none
  | _ => none

/-- The Firebase realtime database as the program sees it: the four
top-level paths, each in store iteration order. -/
structure Store where
  students : List (String × JVal)
  classes : List (String × JVal)
  admins : List (String × JVal)
  users : List (String × JVal)

def setStudent (st : Store) (w : String) (v : JVal) : Store :=
  { st with students := aset st.students w v }

/-- Firebase set at classes/{dept}/{code}: replaces that child wholesale,
creating the intermediate node when absent or not an object. -/
def setClass (st : Store) (dept code : String) (v : JVal) : Store :=
  let deptVal := match alookup st.classes dept with
    | some (.obj dm) => JVal.obj (aset dm code v)
    | _ => JVal.obj [(code, v)]
  { st with classes := aset st.classes dept deptVal }

def getClass (st : Store) (dept code : String) : Option JVal :=
  match alookup st.classes dept with
  | some (.obj dm) => alookup dm code
  | _ => none

/-- get_department of app.py lines 55-63, factored over the outcome of the
store read at students/{whatsapp}: .error models the read raising (the
except clause of line 61), .ok the value it returned (none when the node is
absent).  The function is total: the resolver never raises. -/
def get_department_res (res : Except Unit (Option JVal)) : JVal :=
  match res with
  | .error _ => JVal.str "SE"
  | .ok data =>
    match data with
    | some v =>
      if truthy v then
        match v with
        | .obj m =>
          match alookup m "department" with
          | some dv => dv
          | none => JVal.str "SE"
        | _ => JVal.str "SE"
      else JVal.str "SE"
    | none => JVal.str "SE"

/-- get_department against a concrete (non-raising) store. -/
def get_department (st : Store) (whatsapp : String) : JVal :=
  get_department_res (.ok (alookup st.students whatsapp))

/-- One pass of the loop body of get_next_class (app.py lines 72-82) over a
single (code, details) record, threading the accumulator next_class.  The
inner try/except turns any failure (non-dict details, malformed or missing
or non-string date, failure while re-parsing the accumulator date) into
continue, leaving the accumulator unchanged. -/
def nextClassStep (today : Nat) (acc : Option Dict) (code : String) (details : JVal) : Option Dict :=
  match details with
  | .obj m =>
    let pd := match alookup m "date" with
      | some (.str s) => parseDate s
      | some _ => none
      | none => parseDate ""
    match pd with
    | none => acc
    | some cd =>
      if today ≤ cd then
        match acc with
        | none => some (aset m "course_code" (.str code))
        | some nc =>
          match alookup nc "date" with
          | some (.str s2) =>
            match parseDate s2 with
            | some pd2 => if cd < pd2 then some (aset m "course_code" (.str code)) else acc
            | none => acc
          | _ => acc
      else acc
  | _ => acc

def nextClassLoop (today : Nat) : List (String × JVal) → Option Dict → Option Dict
  | [], acc => acc
  | (code, details) :: rest, acc =>
    nextClassLoop today rest (nextClassStep today acc code details)

/-- get_next_class of app.py lines 66-86.  The store read at
classes/{department} yields the association list entry for the department
(absent = None, turned into the empty dict by the or-default of line 69, as
is any falsy value); a truthy non-dict value makes classes.items() raise,
which the outer except turns into None. -/
def get_next_class (classesDB : List (String × JVal)) (today : Nat) (department : String) : Option Dict :=
  let classes := match alookup classesDB department with
    | none => JVal.obj []
    | some v => if truthy v then v else JVal.obj []
  match classes with
  | .obj items => nextClassLoop today items none
  | _ => none

/-- Python subscription v[k] with a string key: key lookup on a dict
(KeyError when absent), TypeError on anything else. -/
def pySub (v : JVal) (k : String) : Except Unit JVal :=
  match v with
  | .obj m =>
    match alookup m k with
    | some x => .ok x
    | none => .error ()
  | _ => .error ()

/-- Python subscription v[i] with an integer index on a list (IndexError out
of range); anything else raises.  (A string would yield a one-character
string in Python; the program only ever feeds the result to further dict
subscription, which raises on it anyway, so the error is merely one step
early and lands in the same outer except.) -/
def pyAt (v : JVal) (i : Nat) : Except Unit JVal :=
  match v with
  | .arr l =>
    match l.get? i with
    | some x => .ok x
    | none => .error ()
  | _ => .error ()

/-- Python v.get(k) on a dict, None when absent; AttributeError on a
non-dict. -/
def pyGetOpt (v : JVal) (k : String) : Except Unit (Option JVal) :=
  match v with
  | .obj m => .ok (alookup m k)
  | _ => .error ()

/-- Python x in container for a string x (app.py line 168): key membership
on a dict, substring test on a string, element equality on a list, TypeError
otherwise. -/
def pyContains (container : JVal) (x : String) : Except Unit Bool :=
  match container with
  | .obj m => .ok (alookup m x).isSome
  | .str s => .ok (containsSub s.data x.data)
  | .arr l => .ok (l.any (fun e => jeqStr e x))
  | _ => .error ()

/-- Python container[x] for a string x (app.py line 169): dict lookup
(KeyError when absent); a string or list subscripted by a string raises
TypeError. -/
def pyIndex (container : JVal) (x : String) : Except Unit JVal :=
  match container with
  | .obj m =>
    match alookup m x with
    | some v => .ok v
    | none => .error ()
  | _ => .error ()

/-- HTTP outcome of the webhook POST handler: final store, outbound
WhatsApp messages in send order, HTTP status and response body. -/
structure Outcome where
  store : Store
  sent : List (String × String)
  status : Nat
  body : String

/-- Result of the code inside the outer try of the webhook handler: ok is a
normal return, exn an exception propagating to the outer except of app.py
line 194, carrying the store mutations and sends performed so far. -/
inductive RouteRes : Type where
  | ok : Outcome → RouteRes
  | exn : Store → List (String × String) → RouteRes

def RouteRes.store : RouteRes → Store
  | .ok o => o.store
  | .exn s _ => s

def RouteRes.sent : RouteRes → List (String × String)
  | .ok o => o.sent
  | .exn _ l => l

/-- The message routing chain of app.py lines 121-185, entered with the
sender id and the stripped message body.  ai is the outcome of the OpenAI
chat completion call (the answer text, or an error for any failure of that
call). -/
def route (st : Store) (today : Nat) (ai : Except Unit String) (from_number body : String) : RouteRes :=
  let is_admin := isTrueSentinel (alookup st.admins from_number)
  if (startsWithStr (lowerStr body) "adminupdate" && is_admin) = true then
    match splitWS body with
    | _cmd :: dept :: code :: date :: time :: lecturer =>
      let lect := joinSep " " lecturer
      let st2 := setClass st dept code
        (JVal.obj [("date", .str date), ("time", .str time), ("lecturer", .str lect)])
      .ok ⟨st2, [(from_number, "Schedule updated for " ++ (code ++ "."))], 200, "OK"⟩
    | _ =>
      .ok ⟨st, [(from_number, "Error: Invalid adminupdate format.")], 200, "OK"⟩
  else if lowerStr body = "next class" ∨ lowerStr body = "when is my next class?" then
    let dept := get_department st from_number
    let st2 := if jeqStr dept "SE" then setStudent st from_number (JVal.obj [("department", JVal.str "SE")]) else st
    match get_next_class st2.classes today "SE" with
    | some nc =>
      match alookup nc "course_code", alookup nc "date", alookup nc "time", alookup nc "lecturer" with
      | some cc, some dt, some tm, some lec =>
        .ok ⟨st2, [(from_number, "Your next class is " ++ (jstr cc ++ (" on " ++ (jstr dt ++ (" at " ++ (jstr tm ++ (" with " ++ (jstr lec ++ "."))))))))], 200, "OK"⟩
      | _, _, _, _ => .exn st2 []
    | none =>
      .ok ⟨st2, [(from_number, "No upcoming classes found.")], 200, "OK"⟩
  else if lowerStr body = "my courses" then
    let dept := jstr (get_department st from_number)
    match alookup st.classes dept with
    | none =>
      .ok ⟨st, [(from_number, "No courses found for your department.")], 200, "OK"⟩
    | some v =>
      if truthy v then
        match v with
        | .obj m =>
          .ok ⟨st, [(from_number, "Your courses: " ++ (joinSep ", " (m.map (fun p => p.1)) ++ "\nReply with a course code to get details."))], 200, "OK"⟩
        | _ => .exn st []
      else
        .ok ⟨st, [(from_number, "No courses found for your department.")], 200, "OK"⟩
  else
    let dept := jstr (get_department st from_number)
    let classes := match alookup st.classes dept with
      | none => JVal.obj []
      | some v => if truthy v then v else JVal.obj []
    match pyContains classes body with
    | .error _ => .exn st []
    | .ok true =>
      match pyIndex classes body with
      | .error _ => .exn st []
      | .ok class_details =>
        match class_details with
        | .obj dm =>
          .ok ⟨st, [(from_number, "Course: " ++ (body ++ ("\nDate: " ++ (jstr ((alookup dm "date").getD (.str "N/A")) ++ ("\nTime: " ++ (jstr ((alookup dm "time").getD (.str "N/A")) ++ ("\nLecturer: " ++ jstr ((alookup dm "lecturer").getD (.str "N/A")))))))))], 200, "OK"⟩
        | _ => .exn st []
    | .ok false =>
      match ai with
      | .ok answer => .ok ⟨st, [(from_number, trimStr answer)], 200, "OK"⟩
      | .error _ => .ok ⟨st, [(from_number, "Sorry, I could not process your request right now.")], 200, "OK"⟩

/-- The welcome text of app.py line 190. -/
def introMessage : String :=
  "Hello! My name is Zibot, your helpful assistant for Software Engineering students at SDU. Ask me about your schedule, classes, or any SE topic!"

/-- The introduction flow of app.py lines 186-193, transcribed for
reference.  In the source it sits after an if/elif/else chain in which every
branch returns, so nothing ever calls it. -/
def introFlow (st : Store) (from_number : String) : Store × List (String × String) :=
  match alookup st.users from_number with
  | some v =>
    if truthy v then (st, [])
    else ({ st with users := aset st.users from_number (.bool true) }, [(from_number, introMessage)])
  | none => ({ st with users := aset st.users from_number (.bool true) }, [(from_number, introMessage)])

/-- The envelope unpacking of app.py lines 112-120 followed by the routing
chain: the body of the outer try.  Any failure while unpacking is an
exception for the outer except. -/
def handle_data (st : Store) (today : Nat) (ai : Except Unit String) (data : JVal) : RouteRes :=
  match pySub data "entry" with
  | .error _ => .exn st []
  | .ok entryArr =>
  match pyAt entryArr 0 with
  | .error _ => .exn st []
  | .ok entry =>
  match pySub entry "changes" with
  | .error _ => .exn st []
  | .ok changesArr =>
  match pyAt changesArr 0 with
  | .error _ => .exn st []
  | .ok changes =>
  match pySub changes "value" with
  | .error _ => .exn st []
  | .ok value =>
  match pyGetOpt value "messages" with
  | .error _ => .exn st []
  | .ok msgsOpt =>
  match msgsOpt with
  | none => .ok ⟨st, [], 200, "OK"⟩
  | some msgs =>
    if truthy msgs then
      match pyAt msgs 0 with
      | .error _ => .exn st []
      | .ok msg =>
      match pySub msg "from" with
      | .error _ => .exn st []
      | .ok fromv =>
      match pySub msg "text" with
      | .error _ => .exn st []
      | .ok tv =>
      match pySub tv "body" with
      | .error _ => .exn st []
      | .ok bv =>
      match bv with
      | .str s => route st today ai (jstr fromv) (trimStr s)
      | _ => .exn st []
    else .ok ⟨st, [], 200, "OK"⟩

/-- The webhook POST handler for a request whose body is valid JSON
(app.py lines 109-197): the outer try/except turns any exception into the
generic success response. -/
def webhook_post (st : Store) (today : Nat) (ai : Except Unit String) (data : JVal) : Outcome :=
  match handle_data st today ai data with
  | .ok out => out
  | .exn st2 sent => ⟨st2, sent, 200, "OK"⟩

/-- register_student of app.py lines 199-208.  data is the parsed JSON
body; on a non-dict body data.get raises (Flask would answer 500), modelled
by the error case. -/
def register_student (st : Store) (data : JVal) : Except Unit ((Nat × JVal) × Store) :=
  match data with
  | .obj m =>
    let whatsapp := (alookup m "whatsapp").getD JVal.null
    let department := (alookup m "department").getD JVal.null
    if (!truthy whatsapp || !truthy department) = true then
      .ok ((400, .obj [("error", .str "Missing whatsapp or department")]), st)
    else
      .ok ((200, .obj [("message", .str "Student registered.")]),
           setStudent st (jstr whatsapp) (.obj [("department", department)]))
  | _ => .error ()

/-
Specification-side definitions.  These are written from the words of the
spec (not from the source) and are compared with the source-derived
functions in the refinement theorems below.
-/

/-- Department Resolver as the spec words it: if the student record is
present and contains a department field, return it; on any lookup failure
or absence, return the fixed default department. -/
def specDepartment (res : Except Unit (Option JVal)) : JVal :=
  match res with
  | .ok (some (JVal.obj m)) =>
    match alookup m "department" with
    | some dv => dv
    | none => JVal.str "SE"
  | _ => JVal.str "SE"

/-- An eligible record of the Next-Class Finder: a record whose value is a
dict holding a well-formed date that is today or later; returns the record
key, its dict and the parsed date. -/
def eligOf (today : Nat) (p : String × JVal) : Option ((String × Dict) × Nat) :=
  match p.2 with
  | .obj m =>
    match alookup m "date" with
    | some (.str s) =>
      match parseDate s with
      | some d => if today ≤ d then some ((p.1, m), d) else none
      | none => none
    | _ => none
  | _ => none

abbrev EligEntry := (String × Dict) × Nat

def eligList (today : Nat) (items : List (String × JVal)) : List EligEntry :=
  items.filterMap (eligOf today)

def minFold (E : List EligEntry) (a : Nat) : Nat :=
  E.foldl (fun acc x => Nat.min acc x.2) a

/-- First element of a list satisfying a predicate. -/
def findFirst (p : EligEntry → Bool) : List EligEntry → Option EligEntry
  | [] => none
  | x :: t => if p x then some x else findFirst p t

/-- Next-Class Finder as the spec words it: among the eligible records,
the first-encountered one carrying the minimum date, augmented with its key
as course_code; nothing when no record is eligible. -/
def specNextClass (today : Nat) (items : List (String × JVal)) : Option Dict :=
  match eligList today items with
  | [] => none
  | e :: es =>
    match findFirst (fun x => x.2 == minFold es e.2) (e :: es) with
    | some ((code, m), _) => some (aset m "course_code" (.str code))
    | none => none

/-- The whole Next-Class Finder contract of the spec: scan the department's
class mapping (nothing when it is absent or not a mapping). -/
def specGetNextClass (classesDB : List (String × JVal)) (today : Nat) (department : String) : Option Dict :=
  match alookup classesDB department with
  | some (.obj items) => specNextClass today items
  | _ => none

/-
Proof machinery for the Next-Class Finder equivalence: the source loop is
related to a fold of bestStep over the eligible entries.
-/

def bestStep (acc : Option EligEntry) (x : EligEntry) : Option EligEntry :=
  match acc with
  | none => some x
  | some y => if x.2 < y.2 then some x else acc

def stepE (acc : Option EligEntry) (ox : Option EligEntry) : Option EligEntry :=
  match ox with
  | none => acc
  | some x => bestStep acc x

def renderAcc : Option EligEntry → Option Dict
  | none => none
  | some ((c, m), _) => some (aset m "course_code" (.str c))

/-- Loop invariant: the accumulator, when present, carries a dict whose date
field is a string parsing to the recorded date rank. -/
def accInv : Option EligEntry → Prop
  | none => True
  | some ((_, m), d) => ∃ s, alookup m "date" = some (JVal.str s) ∧ parseDate s = some d

/-
Concrete inputs for the witness theorems.
-/

def emptyStore : Store := ⟨[], [], [], []⟩

def class101 : JVal :=
  .obj [("date", .str "2025-03-01"), ("time", .str "10:00"), ("lecturer", .str "Dr Smith")]

def storeW : Store :=
  ⟨[("u1", .obj [("department", .str "CS")])],
   [("SE", .obj [("cs101", class101)])],
   [("a1", .bool true)],
   []⟩

/-
Theorems.  Association-list facts first, then one theorem per claim.
-/

theorem alookup_aset_self {α : Type} (l : List (String × α)) (k : String) (v : α) :
    alookup (aset l k v) k = some v := by
  induction l with
  | nil => simp [aset, alookup]
  | cons p t ih =>
    obtain ⟨k1, v1⟩ := p
    by_cases h : k1 = k
    · simp [aset, alookup, h]
    · simp [aset, alookup, h, ih]

theorem alookup_aset_ne {α : Type} (l : List (String × α)) (k k2 : String) (v : α)
    (h : k ≠ k2) : alookup (aset l k v) k2 = alookup l k2 := by
  induction l with
  | nil => simp [aset, alookup, h]
  | cons p t ih =>
    obtain ⟨k1, v1⟩ := p
    by_cases h1 : k1 = k
    · subst h1
      simp [aset, alookup, h]
    · simp [aset, alookup, h1, ih]

theorem aset_eq_self {α : Type} (l : List (String × α)) (k : String) (v : α)
    (h : alookup l k = some v) : aset l k v = l := by
  induction l with
  | nil => simp [alookup] at h
  | cons p t ih =>
    obtain ⟨k1, v1⟩ := p
    by_cases h1 : k1 = k
    · subst h1
      simp [alookup] at h
      simp [aset, h]
    · simp [alookup, h1] at h
      simp [aset, h1, ih h]

theorem getClass_setClass (st : Store) (dept code : String) (v : JVal) :
    getClass (setClass st dept code v) dept code = some v := by
  unfold getClass setClass
  cases h : alookup st.classes dept with
  | none => simp [h, alookup_aset_self, alookup]
  | some u => cases u <;> simp [h, alookup_aset_self, alookup]

/-- C8: the Department Resolver returns the student record's department
field when the record exists, is a mapping and contains that field; on any
lookup failure or absence it returns the fixed default department; being a
total function of the read outcome, it never raises. -/
theorem claim_C8 : ∀ res : Except Unit (Option JVal),
    get_department_res res = specDepartment res := by
  intro res
  rcases res with e | data
  · rfl
  · rcases data with _ | v
    · rfl
    · cases v with
      | obj m =>
        cases m with
        | nil => rfl
        | cons p t => rfl
      | null => rfl
      | bool b => cases b <;> rfl
      | num n => simp [get_department_res, specDepartment]
      | str s => simp [get_department_res, specDepartment]
      | arr l => simp [get_department_res, specDepartment]

/-- C6 counterexample: a body carrying both fields, the whatsapp value being
the empty string: both fields are present, yet the endpoint answers 400 and
performs no write, contradicting the claim that presence of both fields
yields a write and 200. -/
theorem claim_C6_counterexample :
    (alookup [("whatsapp", JVal.str ""), ("department", JVal.str "SE")] "whatsapp").isSome = true ∧
    (alookup [("whatsapp", JVal.str ""), ("department", JVal.str "SE")] "department").isSome = true ∧
    register_student emptyStore (JVal.obj [("whatsapp", JVal.str ""), ("department", JVal.str "SE")]) =
      .ok ((400, JVal.obj [("error", JVal.str "Missing whatsapp or department")]), emptyStore) :=
  ⟨rfl, rfl, rfl⟩

/-- C6 (amended): if either field is missing or its value is falsy, the
response is 400 with the structured error and no store write is performed;
if both fields are present with truthy values, the record under the student
key is written to exactly a department singleton and the response is 200
with the confirmation body. -/
theorem claim_C6 : ∀ (st : Store) (m : Dict),
    ((truthy ((alookup m "whatsapp").getD JVal.null) = false ∨
      truthy ((alookup m "department").getD JVal.null) = false) →
      register_student st (JVal.obj m) =
        .ok ((400, JVal.obj [("error", JVal.str "Missing whatsapp or department")]), st)) ∧
    (∀ w d, alookup m "whatsapp" = some w → alookup m "department" = some d →
      truthy w = true → truthy d = true →
      register_student st (JVal.obj m) =
        .ok ((200, JVal.obj [("message", JVal.str "Student registered.")]),
             setStudent st (jstr w) (JVal.obj [("department", d)]))) := by
  intro st m
  constructor
  · intro h
    rcases h with h | h <;> simp [register_student, h]
  · intro w d hw hd tw td
    simp [register_student, hw, hd, tw, td]

theorem claim_C6_witness :
    register_student emptyStore (JVal.obj []) =
      .ok ((400, JVal.obj [("error", JVal.str "Missing whatsapp or department")]), emptyStore) ∧
    register_student emptyStore (JVal.obj [("whatsapp", JVal.str "111"), ("department", JVal.str "CS")]) =
      .ok ((200, JVal.obj [("message", JVal.str "Student registered.")]),
           setStudent emptyStore "111" (JVal.obj [("department", JVal.str "CS")])) :=
  ⟨(claim_C6 emptyStore []).1 (Or.inl rfl),
   (claim_C6 emptyStore [("whatsapp", JVal.str "111"), ("department", JVal.str "CS")]).2
     (JVal.str "111") (JVal.str "CS") rfl rfl rfl rfl⟩

theorem route_ok_status : ∀ (st : Store) (today : Nat) (ai : Except Unit String) (w b : String)
    (o : Outcome), route st today ai w b = .ok o → o.status = 200 ∧ o.body = "OK" := by
  intro st today ai w b o h
  simp only [route] at h
  repeat' split at h
  all_goals first
  | (cases h; exact ⟨rfl, rfl⟩)
  | cases h

theorem handle_data_ok_status : ∀ (st : Store) (today : Nat) (ai : Except Unit String) (data : JVal)
    (o : Outcome), handle_data st today ai data = .ok o → o.status = 200 ∧ o.body = "OK" := by
  intro st today ai data o h
  unfold handle_data at h
  repeat' split at h
  all_goals first
  | (cases h; exact ⟨rfl, rfl⟩)
  | cases h
  | exact route_ok_status _ _ _ _ _ _ h

/-- C3: for every POST to the webhook endpoint whose body is valid JSON, the
handler returns HTTP 200 with body OK, whatever the store, the date, the
assistant outcome and the payload: the absent-messages case is a silent
no-op and every exception raised during envelope parsing or routing is
caught at the outer level. -/
theorem claim_C3 : ∀ (st : Store) (today : Nat) (ai : Except Unit String) (data : JVal),
    (webhook_post st today ai data).status = 200 ∧ (webhook_post st today ai data).body = "OK" := by
  intro st today ai data
  unfold webhook_post
  cases h : handle_data st today ai data with
  | ok o => exact handle_data_ok_status st today ai data o h
  | exn st2 sent => exact ⟨rfl, rfl⟩

/-- C7: an admin sender issuing an admin command that splits into fewer than
five whitespace-separated tokens gets the fixed error message; no class
record is written (the store is unchanged) and the handler returns the
success status. -/
theorem claim_C7 : ∀ (st : Store) (today : Nat) (ai : Except Unit String) (w b : String),
    startsWithStr (lowerStr b) "adminupdate" = true →
    alookup st.admins w = some (JVal.bool true) →
    (splitWS b).length < 5 →
    route st today ai w b =
      .ok ⟨st, [(w, "Error: Invalid adminupdate format.")], 200, "OK"⟩ := by
  intro st today ai w b hstart hadmin hlen
  simp only [route, hadmin, hstart, isTrueSentinel, Bool.and_self, if_true]
  rcases h5 : splitWS b with _ | ⟨a1, _ | ⟨a2, _ | ⟨a3, _ | ⟨a4, _ | ⟨a5, rest⟩⟩⟩⟩⟩
  · rfl
  · rfl
  · rfl
  · rfl
  · rfl
  · rw [h5] at hlen
    simp at hlen
    omega

theorem claim_C7_witness :
    route storeW 20250101 (.error ()) "a1" "adminupdate SE cs101" =
      .ok ⟨storeW, [("a1", "Error: Invalid adminupdate format.")], 200, "OK"⟩ :=
  claim_C7 storeW 20250101 (.error ()) "a1" "adminupdate SE cs101" (by decide) rfl (by decide)

/-- C2: an admin-update message (trimmed body starting case-insensitively
with the admin keyword) from a sender whose admin flag is strictly the true
sentinel, splitting into at least five whitespace tokens, replaces the class
record at (department, course code) wholesale with exactly the given date,
time and lecturer (the join of the remaining tokens) and sends a
confirmation naming the course code; a sender who is not an admin issuing
the same command never mutates any store record. -/
theorem claim_C2 : ∀ (st : Store) (today : Nat) (ai : Except Unit String) (w b : String),
    startsWithStr (lowerStr b) "adminupdate" = true →
    (∀ cmd dept code dt tm rest,
      splitWS b = cmd :: dept :: code :: dt :: tm :: rest →
      alookup st.admins w = some (JVal.bool true) →
      getClass (route st today ai w b).store dept code =
        some (JVal.obj [("date", JVal.str dt), ("time", JVal.str tm),
                        ("lecturer", JVal.str (joinSep " " rest))]) ∧
      (route st today ai w b).sent = [(w, "Schedule updated for " ++ (code ++ "."))]) ∧
    (isTrueSentinel (alookup st.admins w) = false →
      (route st today ai w b).store = st) := by
  intro st today ai w b hstart
  constructor
  · intro cmd dept code dt tm rest hsplit hadmin
    simp only [route, hadmin, isTrueSentinel, hstart, Bool.and_self, if_true, hsplit]
    exact ⟨getClass_setClass st dept code _, rfl⟩
  · intro hadm
    have hb1 : lowerStr b ≠ "next class" := by
      intro he
      rw [he] at hstart
      exact absurd hstart (by decide)
    have hb2 : lowerStr b ≠ "when is my next class?" := by
      intro he
      rw [he] at hstart
      exact absurd hstart (by decide)
    have hb3 : lowerStr b ≠ "my courses" := by
      intro he
      rw [he] at hstart
      exact absurd hstart (by decide)
    simp only [route, hadm, Bool.and_false, Bool.false_eq_true, if_false, hb1, hb2, hb3,
      or_self, if_false, or_false]
    repeat' split
    all_goals rfl

theorem claim_C2_witness :
    (getClass (route storeW 20250101 (.ok "x") "a1" "adminupdate SE CS101 2025-03-01 10:00 Dr Smith").store "SE" "CS101" =
       some (JVal.obj [("date", JVal.str "2025-03-01"), ("time", JVal.str "10:00"),
                       ("lecturer", JVal.str "Dr Smith")]) ∧
     (route storeW 20250101 (.ok "x") "a1" "adminupdate SE CS101 2025-03-01 10:00 Dr Smith").sent =
       [("a1", "Schedule updated for CS101.")]) ∧
    (route storeW 20250101 (.ok "x") "u9" "adminupdate SE CS101 2025-03-01 10:00 Dr Smith").store = storeW :=
  ⟨(claim_C2 storeW 20250101 (.ok "x") "a1" "adminupdate SE CS101 2025-03-01 10:00 Dr Smith"
      (by decide)).1 "adminupdate" "SE" "CS101" "2025-03-01" "10:00" ["Dr", "Smith"] (by decide) rfl,
   (claim_C2 storeW 20250101 (.ok "x") "u9" "adminupdate SE CS101 2025-03-01 10:00 Dr Smith"
      (by decide)).2 rfl⟩

/-- C5: in the next-class branch, the student record is (observably) written
with the fixed default department exactly when the resolver fell back to the
default because the sender was unregistered; a sender already registered
with a department record keeps an unchanged student store (a registered
default-department sender is rewritten with the identical value). -/
theorem claim_C5 : ∀ (st : Store) (today : Nat) (ai : Except Unit String) (w b : String),
    (lowerStr b = "next class" ∨ lowerStr b = "when is my next class?") →
    ((alookup st.students w = none →
        (route st today ai w b).store.students =
          aset st.students w (JVal.obj [("department", JVal.str "SE")])) ∧
     (∀ dv, alookup st.students w = some (JVal.obj [("department", JVal.str dv)]) →
        (route st today ai w b).store.students = st.students)) := by
  intro st today ai w b hb
  have hstart : startsWithStr (lowerStr b) "adminupdate" = false := by
    rcases hb with hb | hb <;> rw [hb] <;> decide
  constructor
  · intro halook
    have hdept : get_department st w = JVal.str "SE" := by
      simp [get_department, get_department_res, halook]
    simp only [route, hstart, Bool.false_and, Bool.false_eq_true, if_false, if_pos hb, hdept,
      show jeqStr (JVal.str "SE") "SE" = true from rfl, if_true]
    repeat' split
    all_goals rfl
  · intro dv halook
    have hdept : get_department st w = JVal.str dv := by
      simp [get_department, get_department_res, halook, truthy, alookup]
    simp only [route, hstart, Bool.false_and, Bool.false_eq_true, if_false, if_pos hb, hdept]
    by_cases hdv : dv = "SE"
    · subst hdv
      have haset : aset st.students w (JVal.obj [("department", JVal.str "SE")]) = st.students :=
        aset_eq_self st.students w _ halook
      simp only [show jeqStr (JVal.str "SE") "SE" = true from rfl, if_true]
      repeat' split
      all_goals exact haset
    · have hne : jeqStr (JVal.str dv) "SE" = false := by
        simp [jeqStr, hdv]
      simp only [hne, Bool.false_eq_true, if_false]
      repeat' split
      all_goals rfl

theorem claim_C5_witness :
    (route emptyStore 20250101 (.ok "x") "u1" "next class").store.students =
      aset emptyStore.students "u1" (JVal.obj [("department", JVal.str "SE")]) ∧
    (route storeW 20250101 (.ok "x") "u1" "when is my next class?").store.students = storeW.students :=
  ⟨(claim_C5 emptyStore 20250101 (.ok "x") "u1" "next class" (Or.inl (by decide))).1 rfl,
   (claim_C5 storeW 20250101 (.ok "x") "u1" "when is my next class?" (Or.inr (by decide))).2 "CS" rfl⟩

/-- C4: in the next-class branch the Next-Class Finder is always consulted
for the fixed default department: two stores agreeing on the classes entry
of the default department produce the same outbound messages, however their
students (hence the resolved department), admins or other class mappings
differ. -/
theorem claim_C4 : ∀ (st1 st2 : Store) (today : Nat) (ai : Except Unit String) (w b : String),
    (lowerStr b = "next class" ∨ lowerStr b = "when is my next class?") →
    alookup st1.classes "SE" = alookup st2.classes "SE" →
    (route st1 today ai w b).sent = (route st2 today ai w b).sent := by
  intro st1 st2 today ai w b hb hSE
  have hstart : startsWithStr (lowerStr b) "adminupdate" = false := by
    rcases hb with hb | hb <;> rw [hb] <;> decide
  simp only [route, hstart, Bool.false_and, Bool.false_eq_true, if_false, if_pos hb]
  have e1 : (if jeqStr (get_department st1 w) "SE" = true
      then setStudent st1 w (JVal.obj [("department", JVal.str "SE")]) else st1).classes
      = st1.classes := by
    split <;> rfl
  have e2 : (if jeqStr (get_department st2 w) "SE" = true
      then setStudent st2 w (JVal.obj [("department", JVal.str "SE")]) else st2).classes
      = st2.classes := by
    split <;> rfl
  have hgnc : get_next_class st1.classes today "SE" = get_next_class st2.classes today "SE" := by
    unfold get_next_class
    rw [hSE]
  rw [e1, e2, hgnc]
  cases hx : get_next_class st2.classes today "SE" with
  | none => rfl
  | some nc =>
    dsimp only
    cases h1 : alookup nc "course_code" <;> cases h2 : alookup nc "date" <;>
      cases h3 : alookup nc "time" <;> cases h4 : alookup nc "lecturer" <;> rfl

theorem claim_C4_witness :
    (route ⟨[("u1", .obj [("department", .str "CS")])],
            [("SE", .obj [("cs101", class101)]), ("CS", .obj [])], [], []⟩
        20250101 (.ok "x") "u1" "next class").sent =
    (route ⟨[], [("SE", .obj [("cs101", class101)])], [("u1", .bool true)], []⟩
        20250101 (.ok "x") "u1" "next class").sent :=
  claim_C4 _ _ 20250101 (.ok "x") "u1" "next class" (Or.inl (by decide)) rfl

/-- C10: keyword routing is case-insensitive while course-code lookup is
case-sensitive: a trimmed body matching no keyword phrase that differs only
in letter case from an existing course code of the resolved department (and
equals no code exactly) misses the course-detail branch and is forwarded to
the assistant fallback, whose reply (or the fixed apology) is sent. -/
theorem claim_C10 : ∀ (st : Store) (today : Nat) (ai : Except Unit String) (w b : String) (m : Dict),
    startsWithStr (lowerStr b) "adminupdate" = false →
    lowerStr b ≠ "next class" →
    lowerStr b ≠ "when is my next class?" →
    lowerStr b ≠ "my courses" →
    alookup st.classes (jstr (get_department st w)) = some (JVal.obj m) →
    (∃ p ∈ m, p.1 ≠ b ∧ lowerStr p.1 = lowerStr b) →
    alookup m b = none →
    route st today ai w b =
      .ok ⟨st, [(w, match ai with
                    | .ok a => trimStr a
                    | .error _ => "Sorry, I could not process your request right now.")],
           200, "OK"⟩ := by
  intro st today ai w b m hstart h2 h3 h4 hm hex h7
  obtain ⟨p, hp, hpne, hplow⟩ := hex
  have htr : truthy (JVal.obj m) = true := by
    cases m with
    | nil => exact absurd hp (by simp)
    | cons q t => rfl
  simp only [route, hstart, Bool.false_and, Bool.false_eq_true, if_false]
  rw [if_neg (fun h => h.elim h2 h3), if_neg h4, hm]
  simp only [htr, if_true, pyContains, h7, Option.isSome]
  cases ai <;> rfl

theorem claim_C10_witness :
    route ⟨[], [("SE", .obj [("cs101", class101)])], [], []⟩ 20250101 (.ok " the answer ") "u2" "CS101" =
      .ok ⟨⟨[], [("SE", .obj [("cs101", class101)])], [], []⟩, [("u2", "the answer")], 200, "OK"⟩ :=
  claim_C10 ⟨[], [("SE", .obj [("cs101", class101)])], [], []⟩ 20250101 (.ok " the answer ") "u2" "CS101"
    [("cs101", class101)] (by decide) (by decide) (by decide) (by decide) rfl
    ⟨("cs101", class101), by simp, by decide, by decide⟩ rfl

theorem strData_append (p q : String) : (p ++ q).data = p.data ++ q.data := by
  cases p
  cases q
  rfl

theorem append_ne_intro (s t : String) (c : Char) (l : List Char)
    (hs : s.data = c :: l) (hc : c ≠ Char.ofNat 72) : s ++ t ≠ introMessage := by
  intro he
  have h : (s ++ t).data.head? = introMessage.data.head? := by rw [he]
  rw [strData_append, hs] at h
  simp only [List.cons_append, List.head?_cons] at h
  rw [show introMessage.data.head? = some (Char.ofNat 72) from rfl] at h
  exact hc (Option.some.inj h)

theorem route_no_intro (st : Store) (today : Nat) (ai : Except Unit String) (w b : String)
    (hai : ∀ s, ai = Except.ok s → trimStr s ≠ introMessage) :
    (route st today ai w b).store.users = st.users ∧
    ∀ p ∈ (route st today ai w b).sent, p.2 ≠ introMessage := by
  simp only [route]
  repeat' split
  all_goals constructor
  all_goals try rfl
  all_goals intro p hp
  all_goals simp only [RouteRes.sent, List.mem_singleton, List.not_mem_nil] at hp
  all_goals subst hp
  all_goals dsimp only
  all_goals first
  | decide
  | exact append_ne_intro _ _ (Char.ofNat 83) _ rfl (by decide)
  | exact append_ne_intro _ _ (Char.ofNat 89) _ rfl (by decide)
  | exact append_ne_intro _ _ (Char.ofNat 67) _ rfl (by decide)
  | exact hai _ rfl

theorem handle_no_intro (st : Store) (today : Nat) (ai : Except Unit String) (data : JVal)
    (hai : ∀ s, ai = Except.ok s → trimStr s ≠ introMessage) :
    (handle_data st today ai data).store.users = st.users ∧
    ∀ p ∈ (handle_data st today ai data).sent, p.2 ≠ introMessage := by
  simp only [handle_data]
  repeat' split
  all_goals first
  | exact route_no_intro st today ai _ _ hai
  | exact ⟨rfl, by simp [RouteRes.sent]⟩

/-- C9: the introduction/welcome flow never fires: for every inbound
payload the introduced flag under users is never written and the welcome
message is never sent (assuming the assistant does not coincidentally
produce the welcome text), because every routing branch returns the success
status before the introduction code is reached. -/
theorem claim_C9 : ∀ (st : Store) (today : Nat) (ai : Except Unit String) (data : JVal),
    (∀ s, ai = Except.ok s → trimStr s ≠ introMessage) →
    (webhook_post st today ai data).store.users = st.users ∧
    ∀ p ∈ (webhook_post st today ai data).sent, p.2 ≠ introMessage := by
  intro st today ai data hai
  have h := handle_no_intro st today ai data hai
  unfold webhook_post
  cases hx : handle_data st today ai data with
  | ok o =>
    rw [hx] at h
    exact h
  | exn s2 sent =>
    rw [hx] at h
    exact h

theorem claim_C9_witness :
    (webhook_post storeW 20250101 (.ok "hello") JVal.null).store.users = storeW.users ∧
    ∀ p ∈ (webhook_post storeW 20250101 (.ok "hello") JVal.null).sent, p.2 ≠ introMessage :=
  claim_C9 storeW 20250101 (.ok "hello") JVal.null
    (by
      intro s h
      injection h with h2
      subst h2
      decide)

theorem parseDate_empty : parseDate "" = none := rfl

theorem eligOf_inv (today : Nat) (p : String × JVal) (c : String) (m : Dict) (d : Nat)
    (h : eligOf today p = some ((c, m), d)) :
    p.1 = c ∧ p.2 = JVal.obj m ∧
    (∃ s, alookup m "date" = some (JVal.str s) ∧ parseDate s = some d) ∧ today ≤ d := by
  cases hv : p.2 with
  | obj m2 =>
    simp only [eligOf, hv] at h
    cases hd : alookup m2 "date" with
    | none => simp [hd] at h
    | some v =>
      cases v <;> simp only [hd] at h <;> try exact absurd h (by simp)
      rename_i s
      cases hp : parseDate s with
      | none => simp [hp] at h
      | some d2 =>
        simp only [hp] at h
        by_cases hle : today ≤ d2
        · rw [if_pos hle] at h
          simp only [Option.some.injEq, Prod.mk.injEq] at h
          obtain ⟨⟨hc, hm⟩, hd2⟩ := h
          subst hc
          subst hm
          subst hd2
          exact ⟨rfl, rfl, ⟨s, hd, hp⟩, hle⟩
        · rw [if_neg hle] at h
          exact absurd h (by simp)
  | null => simp [eligOf, hv] at h
  | bool b => simp [eligOf, hv] at h
  | num n => simp [eligOf, hv] at h
  | str s => simp [eligOf, hv] at h
  | arr l => simp [eligOf, hv] at h

theorem accInv_stepE (today : Nat) (p : String × JVal) (acc : Option EligEntry)
    (hinv : accInv acc) : accInv (stepE acc (eligOf today p)) := by
  cases he : eligOf today p with
  | none => exact hinv
  | some x =>
    obtain ⟨⟨c, m⟩, d⟩ := x
    obtain ⟨-, -, hs, -⟩ := eligOf_inv today p c m d he
    cases acc with
    | none => exact hs
    | some y =>
      simp only [stepE, bestStep]
      split
      · exact hs
      · exact hinv

theorem step_render (today : Nat) (code : String) (details : JVal) (acc : Option EligEntry)
    (hinv : accInv acc) :
    nextClassStep today (renderAcc acc) code details =
      renderAcc (stepE acc (eligOf today (code, details))) := by
  cases details with
  | obj m =>
    cases hd : alookup m "date" with
    | none => simp [nextClassStep, eligOf, hd, stepE, parseDate_empty]
    | some v =>
      cases v with
      | str s =>
        cases hp : parseDate s with
        | none => simp [nextClassStep, eligOf, hd, hp, stepE]
        | some d =>
          by_cases hle : today ≤ d
          · cases acc with
            | none =>
              simp [nextClassStep, eligOf, hd, hp, hle, stepE, bestStep, renderAcc]
            | some y =>
              obtain ⟨⟨c0, m0⟩, d0⟩ := y
              obtain ⟨s0, hs0, hp0⟩ := hinv
              have hne : ("course_code" : String) ≠ "date" := by decide
              have hlook : alookup (aset m0 "course_code" (JVal.str c0)) "date" =
                  some (JVal.str s0) := by
                rw [alookup_aset_ne _ _ _ _ hne, hs0]
              by_cases hdd : d < d0
              · simp [nextClassStep, eligOf, hd, hp, hle, stepE, bestStep, renderAcc,
                  hlook, hp0, hdd]
              · simp [nextClassStep, eligOf, hd, hp, hle, stepE, bestStep, renderAcc,
                  hlook, hp0, hdd]
          · simp [nextClassStep, eligOf, hd, hp, hle, stepE]
      | null => simp [nextClassStep, eligOf, hd, stepE]
      | bool b => simp [nextClassStep, eligOf, hd, stepE]
      | num n => simp [nextClassStep, eligOf, hd, stepE]
      | arr l => simp [nextClassStep, eligOf, hd, stepE]
      | obj m2 => simp [nextClassStep, eligOf, hd, stepE]
  | null => rfl
  | bool b => rfl
  | num n => rfl
  | str s => rfl
  | arr l => rfl

theorem loop_render (today : Nat) (items : List (String × JVal)) (acc : Option EligEntry)
    (hinv : accInv acc) :
    nextClassLoop today items (renderAcc acc) =
      renderAcc ((eligList today items).foldl bestStep acc) := by
  induction items generalizing acc with
  | nil => rfl
  | cons p rest ih =>
    obtain ⟨code, details⟩ := p
    have h1 : nextClassLoop today ((code, details) :: rest) (renderAcc acc) =
        nextClassLoop today rest (nextClassStep today (renderAcc acc) code details) := rfl
    rw [h1, step_render today code details acc hinv,
      ih _ (accInv_stepE today (code, details) acc hinv)]
    simp only [eligList, List.filterMap_cons]
    cases he : eligOf today (code, details) with
    | none => simp [stepE, eligList]
    | some x => simp [stepE, eligList, List.foldl_cons]

theorem natMin_eq_right (a b : Nat) (h : b ≤ a) : Nat.min a b = b := by
  rw [show Nat.min a b = min a b from rfl]
  exact min_eq_right h

theorem natMin_eq_left (a b : Nat) (h : a ≤ b) : Nat.min a b = a := by
  rw [show Nat.min a b = min a b from rfl]
  exact min_eq_left h

theorem minFold_cons (x : EligEntry) (es : List EligEntry) (a : Nat) :
    minFold (x :: es) a = minFold es (Nat.min a x.2) := rfl

theorem minFold_le (E : List EligEntry) (a : Nat) : minFold E a ≤ a := by
  induction E generalizing a with
  | nil => exact Nat.le_refl a
  | cons x es ih =>
    rw [minFold_cons]
    exact Nat.le_trans (ih (Nat.min a x.2)) (Nat.min_le_left a x.2)

theorem findFirst_cons (p : EligEntry → Bool) (x : EligEntry) (t : List EligEntry) :
    findFirst p (x :: t) = if p x then some x else findFirst p t := rfl

theorem foldl_bestStep_some (E : List EligEntry) (y : EligEntry) :
    E.foldl bestStep (some y) =
      if minFold E y.2 = y.2 then some y
      else findFirst (fun x => x.2 == minFold E y.2) E := by
  induction E generalizing y with
  | nil => simp [minFold]
  | cons x es ih =>
    have hstep : List.foldl bestStep (some y) (x :: es) =
        List.foldl bestStep (if x.2 < y.2 then some x else some y) es := rfl
    by_cases hx : x.2 < y.2
    · rw [hstep, if_pos hx, ih x]
      have hmin : minFold (x :: es) y.2 = minFold es x.2 := by
        rw [minFold_cons]
        congr 1
        exact natMin_eq_right y.2 x.2 (Nat.le_of_lt hx)
      have hlt : minFold es x.2 < y.2 := Nat.lt_of_le_of_lt (minFold_le es x.2) hx
      rw [hmin, if_neg (Nat.ne_of_lt hlt), findFirst_cons]
      by_cases hdx : minFold es x.2 = x.2
      · rw [if_pos hdx, if_pos (by simp [hdx])]
      · rw [if_neg hdx, if_neg (by simp; exact fun he => hdx he.symm)]
    · have hyx : y.2 ≤ x.2 := Nat.le_of_not_lt hx
      rw [hstep, if_neg hx, ih y]
      have hmin : minFold (x :: es) y.2 = minFold es y.2 := by
        rw [minFold_cons]
        congr 1
        exact natMin_eq_left y.2 x.2 hyx
      rw [hmin]
      by_cases hcond : minFold es y.2 = y.2
      · rw [if_pos hcond, if_pos hcond]
      · rw [if_neg hcond, if_neg hcond, findFirst_cons]
        have hlt : minFold es y.2 < y.2 :=
          Nat.lt_of_le_of_ne (minFold_le es y.2) hcond
        have hne2 : x.2 ≠ minFold es y.2 := by omega
        rw [if_neg (by simp [hne2])]

theorem bestOf_eq_find (e : EligEntry) (es : List EligEntry) :
    (e :: es).foldl bestStep none = findFirst (fun x => x.2 == minFold es e.2) (e :: es) := by
  have h1 : (e :: es).foldl bestStep none = es.foldl bestStep (some e) := rfl
  rw [h1, foldl_bestStep_some es e, findFirst_cons]
  by_cases h : minFold es e.2 = e.2
  · rw [if_pos h, if_pos (by simp [h])]
  · rw [if_neg h, if_neg (by simp; exact fun he => h he.symm)]

/-- C1: the Next-Class Finder computes exactly the specification: for every
department mapping, it returns the first-encountered record whose value is a
dict with a well-formed date that is today or later and whose date is the
minimum such date, augmented with its key as course_code; records with
non-dict values or malformed dates are skipped individually, and the result
is nothing when no eligible record exists, the mapping is empty or absent,
or the department node is not a mapping. -/
theorem claim_C1 : ∀ (classesDB : List (String × JVal)) (today : Nat) (department : String),
    get_next_class classesDB today department = specGetNextClass classesDB today department := by
  intro classesDB today department
  unfold get_next_class specGetNextClass
  cases ha : alookup classesDB department with
  | none => rfl
  | some v =>
    cases v with
    | obj items =>
      cases items with
      | nil => rfl
      | cons p rest =>
        have htr : truthy (JVal.obj (p :: rest)) = true := rfl
        dsimp only
        rw [if_pos htr]
        dsimp only
        have hloop : nextClassLoop today (p :: rest) none =
            renderAcc ((eligList today (p :: rest)).foldl bestStep none) :=
          loop_render today (p :: rest) none trivial
        rw [hloop]
        unfold specNextClass
        cases hE : eligList today (p :: rest) with
        | nil => rfl
        | cons e es =>
          rw [bestOf_eq_find e es]
          dsimp only
          cases hf : findFirst (fun x => x.2 == minFold es e.2) (e :: es) with
          | none => rfl
          | some x =>
            obtain ⟨⟨c, m⟩, d⟩ := x
            rfl
    | null => rfl
    | bool b => cases b <;> rfl
    | num n =>
      dsimp only
      by_cases ht : truthy (JVal.num n) = true
      · rw [if_pos ht]
      · rw [if_neg ht]
        rfl
    | str s =>
      dsimp only
      by_cases ht : truthy (JVal.str s) = true
      · rw [if_pos ht]
      · rw [if_neg ht]
        rfl
    | arr l =>
      dsimp only
      by_cases ht : truthy (JVal.arr l) = true
      · rw [if_pos ht]
      · rw [if_neg ht]
        rfl
